import Mathlib

set_option maxHeartbeats 1000000

/-!
Shallow embedding of the invoice computation pipeline of
estimate-generator-cli (src/lib/utils.js, src/lib/validation.js,
src/index.js).

JavaScript numbers are modelled as exact rationals extended with NaN and
the two signed infinities.  Binary floating point rounding and negative
zero are not modelled: every claim under scrutiny is about exact
algebraic relationships between the computed quantities, which the
JavaScript source establishes by the same sequence of operations.
-/

/-- Model of a JavaScript number: NaN, Infinity, -Infinity, or a finite
value (an exact rational). -/
inductive JSNum where
  | nan
  | posInf
  | negInf
  | fin (q : ℚ)
deriving DecidableEq

/-- Model of the JavaScript values that flow through the pipeline:
undefined, null, numbers and strings. -/
inductive JSVal where
  | undefined
  | null
  | num (n : JSNum)
  | str (s : String)
deriving DecidableEq

/-- ECMAScript StrWhiteSpaceChar restricted to the ASCII range (space,
tab, line feed, carriage return, vertical tab, form feed).  Unicode
space characters are not modelled; no repository data contains them. -/
def isWS (c : Char) : Bool :=
  c == ' ' || c == '\t' || c == '\n' || c == '\r' || c == '\x0B' || c == '\x0C'

/-- Numeric value of a list of decimal digit characters, most
significant first. -/
def digitsVal (ds : List Char) : Nat :=
  ds.foldl (fun a c => a * 10 + (c.toNat - '0'.toNat)) 0

/-- Parses a decimal mantissa `digits [. digits]` (at least one digit
overall) from the front of a character list, returning its exact value
and the unconsumed remainder. -/
def parseMantissa (cs : List Char) : Option (ℚ × List Char) :=
  let ip := cs.takeWhile Char.isDigit
  let r1 := cs.dropWhile Char.isDigit
  let fp :=
    match r1 with
    | '.' :: r2 => r2.takeWhile Char.isDigit
    | _ => []
  let r3 :=
    match r1 with
    | '.' :: r2 => r2.dropWhile Char.isDigit
    | _ => r1
  if ip.isEmpty && fp.isEmpty then none
  else some ((digitsVal ip : ℚ) + (digitsVal fp : ℚ) / (10 : ℚ) ^ fp.length, r3)

/-- Parses an exponent part `e|E [+|-] digits` (at least one digit) from
the front of a character list, returning the signed exponent and the
unconsumed remainder. -/
def parseExp (cs : List Char) : Option (Int × List Char) :=
  match cs with
  | 'e' :: r | 'E' :: r =>
    let sr : Bool × List Char :=
      match r with
      | '-' :: rr => (true, rr)
      | '+' :: rr => (false, rr)
      | rr => (false, rr)
    let ds := sr.2.takeWhile Char.isDigit
    if ds.isEmpty then none
    else
      some ((if sr.1 then -(digitsVal ds : Int) else (digitsVal ds : Int)),
        sr.2.dropWhile Char.isDigit)
  | _ => none

/-- Multiplies a mantissa by a signed power of ten. -/
def applyExp (m : ℚ) (e : Int) : ℚ :=
  if 0 ≤ e then m * (10 : ℚ) ^ e.toNat else m / (10 : ℚ) ^ (-e).toNat

/-- Model of the JavaScript builtin `parseFloat`: skip leading white
space, then parse the longest prefix that is a signed `Infinity` or a
signed decimal literal with optional fraction and exponent; NaN when no
prefix parses.  Trailing garbage is ignored. -/
def parseFloat (s : String) : JSNum :=
  let cs := s.data.dropWhile isWS
  let sr : Bool × List Char :=
    match cs with
    | '-' :: r => (true, r)
    | '+' :: r => (false, r)
    | r => (false, r)
  match sr.2 with
  | 'I' :: 'n' :: 'f' :: 'i' :: 'n' :: 'i' :: 't' :: 'y' :: _ =>
    if sr.1 then .negInf else .posInf
  | cs2 =>
    match parseMantissa cs2 with
    | none => .nan
    | some (m, r) =>
      let v :=
        match parseExp r with
        | some (e, _) => applyExp m e
        | none => m
      .fin (if sr.1 then -v else v)

/-- Model of the JavaScript builtin `parseInt(s, 10)`: skip leading
white space, optional sign, then the longest prefix of decimal digits;
NaN when there is none.  The result is always a (finite) integer. -/
def parseInt (s : String) : JSNum :=
  let cs := s.data.dropWhile isWS
  let sr : Bool × List Char :=
    match cs with
    | '-' :: r => (true, r)
    | '+' :: r => (false, r)
    | r => (false, r)
  let ds := sr.2.takeWhile Char.isDigit
  if ds.isEmpty then .nan
  else
    let n : Int := if sr.1 then -(digitsVal ds : Int) else (digitsVal ds : Int)
    .fin (n : ℚ)

/-- Model of the ECMAScript ToNumber conversion on strings: trim white
space, empty gives 0, otherwise the whole string must be a signed
`Infinity` or decimal literal (hex, octal and binary literals are not
modelled; the repository's data never contains them). -/
def strToNumber (s : String) : JSNum :=
  let cs := ((s.data.dropWhile isWS).reverse.dropWhile isWS).reverse
  if cs.isEmpty then .fin 0
  else
    let sr : Bool × List Char :=
      match cs with
      | '-' :: r => (true, r)
      | '+' :: r => (false, r)
      | r => (false, r)
    if sr.2 = ['I', 'n', 'f', 'i', 'n', 'i', 't', 'y'] then
      (if sr.1 then .negInf else .posInf)
    else
      match parseMantissa sr.2 with
      | none => .nan
      | some (m, r) =>
        match r with
        | [] => .fin (if sr.1 then -m else m)
        | _ =>
          match parseExp r with
          | some (e, rr) =>
            if rr.isEmpty then .fin (if sr.1 then -(applyExp m e) else applyExp m e)
            else .nan
          | none => .nan

/-- ECMAScript ToNumber on the modelled values: undefined is NaN, null
is 0, numbers are themselves, strings convert via `strToNumber`. -/
def toNumber : JSVal → JSNum
  | .undefined => .nan
  | .null => .fin 0
  | .num n => n
  | .str s => strToNumber s

/-- JavaScript numeric addition with NaN and infinity propagation. -/
def jsAddN : JSNum → JSNum → JSNum
  | .nan, _ => .nan
  | _, .nan => .nan
  | .fin a, .fin b => .fin (a + b)
  | .posInf, .negInf => .nan
  | .negInf, .posInf => .nan
  | .posInf, _ => .posInf
  | .negInf, _ => .negInf
  | .fin _, .posInf => .posInf
  | .fin _, .negInf => .negInf

/-- JavaScript numeric negation. -/
def jsNegN : JSNum → JSNum
  | .nan => .nan
  | .posInf => .negInf
  | .negInf => .posInf
  | .fin q => .fin (-q)

/-- JavaScript numeric subtraction. -/
def jsSubN (a b : JSNum) : JSNum := jsAddN a (jsNegN b)

/-- JavaScript numeric multiplication with NaN and infinity
propagation (0 times an infinity is NaN). -/
def jsMulN : JSNum → JSNum → JSNum
  | .nan, _ => .nan
  | _, .nan => .nan
  | .fin a, .fin b => .fin (a * b)
  | .posInf, .posInf => .posInf
  | .posInf, .negInf => .negInf
  | .negInf, .posInf => .negInf
  | .negInf, .negInf => .posInf
  | .posInf, .fin b => if b = 0 then .nan else if 0 < b then .posInf else .negInf
  | .negInf, .fin b => if b = 0 then .nan else if 0 < b then .negInf else .posInf
  | .fin a, .posInf => if a = 0 then .nan else if 0 < a then .posInf else .negInf
  | .fin a, .negInf => if a = 0 then .nan else if 0 < a then .negInf else .posInf

/-- JavaScript numeric division (negative zero is identified with
zero, so a finite value divided by an infinity is 0 and a nonzero
finite value divided by 0 is a signed infinity). -/
def jsDivN : JSNum → JSNum → JSNum
  | .nan, _ => .nan
  | _, .nan => .nan
  | .fin a, .fin b =>
    if b = 0 then (if a = 0 then .nan else if 0 < a then .posInf else .negInf)
    else .fin (a / b)
  | .posInf, .fin b => if 0 ≤ b then .posInf else .negInf
  | .negInf, .fin b => if 0 ≤ b then .negInf else .posInf
  | .fin _, .posInf => .fin 0
  | .fin _, .negInf => .fin 0
  | .posInf, .posInf => .nan
  | .posInf, .negInf => .nan
  | .negInf, .posInf => .nan
  | .negInf, .negInf => .nan

/-- Model of `Math.round`: half-integers round toward positive
infinity; NaN and the infinities pass through. -/
def jsRound : JSNum → JSNum
  | .fin q => .fin (((q + 1 / 2).floor : ℤ) : ℚ)
  | n => n

/-- Truncation of a rational toward zero, as JavaScript's decimal
rendering of a number followed by `parseInt` produces. -/
def ratTrunc (q : ℚ) : Int := if 0 ≤ q then q.floor else q.ceil

/-- The decimal digit character for `n % 10`. -/
def digitChar (n : Nat) : Char := Char.ofNat (48 + n % 10)

/-- Fuel-driven most-significant-first decimal digit list of a natural
number; the fuel bounds the number of digits. -/
def natStrAux : Nat → Nat → List Char
  | 0, _ => []
  | f + 1, n => if n < 10 then [digitChar n] else natStrAux f (n / 10) ++ [digitChar (n % 10)]

/-- Decimal string of a natural number. -/
def natStr (n : Nat) : String := ⟨natStrAux (n + 1) n⟩

/-- Two-digit decimal string of `k % 100`, with a leading zero. -/
def twoDigits (k : Nat) : String := ⟨[digitChar (k / 10), digitChar k]⟩

/-- Model of `Number.prototype.toFixed(2)`: the value rounded to the
nearest hundredth (ties toward the larger candidate, per the
ECMAScript specification) and rendered with exactly two decimals.
NaN and the infinities render as their names.  Negative zero renders
without the sign (a divergence from JavaScript only in that corner). -/
def toFixed2 : JSNum → String
  | .nan => "NaN"
  | .posInf => "Infinity"
  | .negInf => "-Infinity"
  | .fin q =>
    let n : Int := (q * 100 + 1 / 2).floor
    (if n < 0 then "-" else "") ++ natStr (n.natAbs / 100) ++ "." ++ twoDigits (n.natAbs % 100)

/-- The fixed currency table of src/lib/utils.js, as (code, symbol)
pairs in source order.  Each source entry is a singleton object and
every symbol is a non-empty (hence truthy) string, so an association
list lookup is a faithful model of the source's `find`. -/
def CURRENCIES : List (String × String) :=
  [("usd", "$"), ("aud", "$"), ("gbp", "£"), ("eur", "€"), ("inr", "₹"),
   ("brl", "R$"), ("cad", "$"), ("hkd", "$"), ("ils", "₪"), ("jpy", "¥"),
   ("mxn", "$"), ("twd", "NT$"), ("nzd", "$"), ("php", "P"), ("sgd", "$"),
   ("thb", "฿"), ("kes", "Ksh"), ("ngn", "₦")]

/-- Model of `String.prototype.toLowerCase` on the ASCII range (the
currency codes are ASCII). -/
def strToLower (s : String) : String := ⟨s.data.map Char.toLower⟩

/-- `getCurrencySymbol` of src/lib/utils.js: case-insensitive lookup in
the currency table, empty string when the code is unknown. -/
def getCurrencySymbol (currencyCode : String) : String :=
  let code := strToLower currencyCode
  ((CURRENCIES.find? (fun curr => curr.1 = code)).map (fun curr => curr.2)).getD ""

/-- The number that `parseFloat` yields on a modelled value, as used by
`formatPrice` (a number passes through unchanged; null and undefined
stringify to words with no numeric prefix, hence NaN). -/
def parseFloatVal : JSVal → JSNum
  | .num n => n
  | .str s => parseFloat s
  | _ => .nan

/-- `formatPrice` of src/lib/utils.js: the currency symbol and the
value fixed to two decimals, joined after dropping empty (falsy)
strings. -/
def formatPrice (value : JSVal) (currency : String) : String :=
  String.join (([getCurrencySymbol currency, toFixed2 (parseFloatVal value)]).filter
    (fun part => part ≠ ""))

/-- `isEmpty` of src/lib/utils.js: `value == null || value === "" ||
value === undefined` (loose equality with null also covers
undefined). -/
def isEmptyVal : JSVal → Bool
  | .null => true
  | .undefined => true
  | .str s => s = ""
  | .num _ => false

/-- `cleanPrice` of src/lib/utils.js: null when the input is empty,
otherwise `parseFloat` of it (`parseFloat` of a number is the number
itself, via its string rendering). -/
def cleanPrice (price : JSVal) : JSVal :=
  if isEmptyVal price then .null
  else
    match price with
    | .str s => .num (parseFloat s)
    | .num n => .num n
    | _ => .num .nan

/-- `cleanNumber` of src/lib/utils.js: null when the input is empty,
otherwise `parseInt(input, 10)`.  On a finite number this truncates
toward zero via the decimal rendering (the exponent-notation corner of
very large or tiny magnitudes is not modelled; no claim reaches it);
NaN and the infinities render with no leading digits, hence NaN. -/
def cleanNumber (num : JSVal) : JSVal :=
  if isEmptyVal num then .null
  else
    match num with
    | .str s => .num (parseInt s)
    | .num (.fin q) => .num (.fin ((ratTrunc q : ℤ) : ℚ))
    | _ => .num .nan

/-- `Number.isNaN` (no coercion: true only for the NaN number). -/
def numberIsNaN : JSVal → Bool
  | .num .nan => true
  | _ => false

/-- `Number.isInteger` (no coercion: true only for finite numbers with
no fractional part). -/
def numberIsInteger : JSVal → Bool
  | .num (.fin q) => q.den = 1
  | _ => false

/-- The JavaScript comparison `value > 0` on the modelled values (a
string operand is coerced through ToNumber). -/
def jsGtZero (v : JSVal) : Bool :=
  match toNumber v with
  | .fin q => decide (0 < q)
  | .posInf => true
  | _ => false

/-- `calculatePercentage` of src/lib/utils.js: throws when either
argument is the NaN number, otherwise `(value * percent) / 100` with
the JavaScript coercions. -/
def calculatePercentage (value percent : JSVal) : Except String JSNum :=
  if numberIsNaN value || numberIsNaN percent then
    Except.error "Both \x27value\x27 and \x27percent\x27 must be valid numbers."
  else
    Except.ok (jsDivN (jsMulN (toNumber value) (toNumber percent)) (.fin 100))

instance {ε α : Type} [DecidableEq ε] [DecidableEq α] : DecidableEq (Except ε α)
  | .ok a, .ok b =>
    match decEq a b with
    | isTrue h => isTrue (h ▸ rfl)
    | isFalse h => isFalse fun hc => h (Except.ok.inj hc)
  | .error a, .error b =>
    match decEq a b with
    | isTrue h => isTrue (h ▸ rfl)
    | isFalse h => isFalse fun hc => h (Except.error.inj hc)
  | .ok _, .error _ => isFalse fun hc => Except.noConfusion hc
  | .error _, .ok _ => isFalse fun hc => Except.noConfusion hc

/-- A table row reduced to the three canonical columns (the result type
of `validateAndFilterColumns` of src/lib/validation.js and the row type
consumed by validation and by the totals engine). -/
structure Row where
  item : JSVal
  price : JSVal
  qty : JSVal
deriving DecidableEq

/-- A raw parsed table row: an association list from column names to
cell values, as the HTML-table-to-JSON collaborator produces.  JS
object key access is modelled by first-match lookup. -/
def RawRow : Type := List (String × JSVal)

/-- `isValidAmount` of src/lib/validation.js: not null, `cleanPrice` of
it is not NaN, and it compares greater than 0. -/
def isValidAmount (amount : JSVal) : Bool :=
  if amount = JSVal.null then false
  else !numberIsNaN (cleanPrice amount) && jsGtZero amount

/-- `validatePrice` of src/lib/validation.js: the `cleanPrice` parse is
not NaN. -/
def validatePrice (value : JSVal) : Bool :=
  !numberIsNaN (cleanPrice value)

/-- `validateQty` of src/lib/validation.js: the `cleanNumber` parse is
not NaN and is an integer. -/
def validateQty (value : JSVal) : Bool :=
  let parsedValue := cleanNumber value
  !numberIsNaN parsedValue && numberIsInteger parsedValue

/-- Models the slugify and latinize libraries on object keys: the
header names occurring in repository data are ASCII words, for which
slugification with the `lower` option is lowercasing with spaces
hyphenated. -/
def slugifyKey (s : String) : String :=
  (s.map (fun c => if c = ' ' then '-' else c)).toLower

/-- `slugifyObjectKeys` of src/lib/utils.js: slugify every key of the
record. -/
def slugifyObjectKeys (obj : RawRow) : RawRow :=
  obj.map (fun kv => (slugifyKey kv.1, kv.2))

/-- The `hasOwnProperty`-guarded column read inside
`validateAndFilterColumns`: the cell value, or the missing-column
error. -/
def getCol (row : RawRow) (column : String) : Except String JSVal :=
  match row.find? (fun kv => kv.1 = column) with
  | some kv => Except.ok kv.2
  | none => Except.error ("Missing expected column \x27" ++ column ++ "\x27")

/-- One row of `validateAndFilterColumns` of src/lib/validation.js:
keep exactly the columns item, price, qty (in that order, failing on
the first missing one, as the source's forEach does). -/
def validateRowColumns (row : RawRow) : Except String Row := do
  let item ← getCol row "item"
  let price ← getCol row "price"
  let qty ← getCol row "qty"
  pure { item := item, price := price, qty := qty }

/-- `validateAndFilterColumns` of src/lib/validation.js: map
`validateRowColumns` over the rows, the first thrown error
propagating. -/
def validateAndFilterColumns : List RawRow → Except String (List Row)
  | [] => Except.ok []
  | row :: rest => do
    let r ← validateRowColumns row
    let rs ← validateAndFilterColumns rest
    pure (r :: rs)

/-- The per-row error messages of `validateDataRows` of
src/lib/validation.js, for the row at 0-based index `index`: an
"Invalid Price" message when the price cell is present and fails
`validatePrice`, then an "Invalid Qty" message likewise. -/
def rowErrors (index : Nat) (row : Row) : List String :=
  (if row.price ≠ JSVal.undefined ∧ validatePrice row.price = false then
    ["Object " ++ natStr (index + 1) ++ ": Invalid Price"]
  else []) ++
  (if row.qty ≠ JSVal.undefined ∧ validateQty row.qty = false then
    ["Object " ++ natStr (index + 1) ++ ": Invalid Qty"]
  else [])

/-- The flatMap-with-index of `validateDataRows`, collecting the error
messages of every row. -/
def collectRowErrors : Nat → List Row → List String
  | _, [] => []
  | i, row :: rest => rowErrors i row ++ collectRowErrors (i + 1) rest

/-- `Array.prototype.join("\n")`. -/
def joinLines : List String → String
  | [] => ""
  | [e] => e
  | e :: rest => e ++ "\n" ++ joinLines rest

/-- `validateDataRows` of src/lib/validation.js: collect every row's
violations and throw them joined by newlines; no error when every row
is clean. -/
def validateDataRows (data : List Row) : Except String Unit :=
  let errors := collectRowErrors 0 data
  if errors.isEmpty then Except.ok ()
  else Except.error (joinLines errors)

/-- The error message thrown by `parseAndValidateTable` of
src/index.js when the document contains no table. -/
def noTableMsg : String := "Please provide an estimate table in the markdown content."

/-- `parseAndValidateTable` of src/index.js, starting from the result
of the external markdown/table parsing collaborators (`none` models a
falsy `jsonTables`/`results`): error when there are no tables,
otherwise slugify the first table's keys, filter its columns and
validate its rows. -/
def parseAndValidateTable (jsonTables : Option (List (List RawRow))) :
    Except String (List Row) :=
  let tables := jsonTables.getD []
  match tables with
  | [] => Except.error noTableMsg
  | t :: _ => do
    let table := t.map slugifyObjectKeys
    let filteredTable ← validateAndFilterColumns table
    match validateDataRows filteredTable with
    | Except.error e => Except.error e
    | Except.ok _ => Except.ok filteredTable

/-- A priced line item: the result row type of `calculateUnitTotals`
of src/lib/validation.js (the spread of the input row with price
overwritten and the computed and formatted fields added). -/
structure UnitRow where
  item : JSVal
  price : JSVal
  qty : JSVal
  total : JSNum
  priceHtml : String
  totalHtml : String
  priceWithTax : JSNum
  totalWithTax : JSNum
  priceHtmlWithTax : String
  totalHtmlWithTax : String
deriving DecidableEq

/-- The body of the `calculateUnitTotals` map of
src/lib/validation.js for one row.  The `+` building `priceWithTax`
has number-or-null operands, never strings, so it is numeric
addition. -/
def unitRowCalc (currency : String) (serviceTax : JSVal) (row : Row) :
    Except String UnitRow :=
  let priceWithoutTax := cleanPrice row.price
  let totalWithoutTax := jsMulN (toNumber row.qty) (toNumber priceWithoutTax)
  let taxRate := if isValidAmount serviceTax then cleanPrice serviceTax else JSVal.num (.fin 0)
  match calculatePercentage priceWithoutTax taxRate with
  | Except.error e => Except.error e
  | Except.ok pct =>
    let priceWithTax := jsAddN (toNumber priceWithoutTax) pct
    let totalWithTax := jsMulN (toNumber row.qty) priceWithTax
    Except.ok
      { item := row.item
        price := priceWithoutTax
        qty := row.qty
        total := totalWithoutTax
        priceHtml := formatPrice row.price currency
        totalHtml := formatPrice (.num totalWithoutTax) currency
        priceWithTax := priceWithTax
        totalWithTax := totalWithTax
        priceHtmlWithTax := formatPrice (.num priceWithTax) currency
        totalHtmlWithTax := formatPrice (.num totalWithTax) currency }

/-- `calculateUnitTotals` of src/lib/validation.js: map `unitRowCalc`
over the rows, the first thrown error propagating. -/
def calculateUnitTotals : List Row → String → JSVal → Except String (List UnitRow)
  | [], _, _ => Except.ok []
  | row :: rest, currency, serviceTax => do
    let u ← unitRowCalc currency serviceTax row
    let us ← calculateUnitTotals rest currency serviceTax
    pure (u :: us)

/-- The invoice data record passed to `calculateInvoiceTotals`
(the result shape of `extractInvoiceData` of src/index.js). -/
structure InvoiceData where
  tables : List UnitRow
  tax : JSVal
  otherFee : JSVal
  discount : JSVal
  currency : String
deriving DecidableEq

/-- The result record of `calculateInvoiceTotals`. -/
structure InvoiceTotals where
  subtotal : JSNum
  tax : JSVal
  taxAmt : JSNum
  discount : JSVal
  otherFee : JSVal
  otherFeeAmt : JSNum
  total : JSNum
  subtotalHtml : String
  taxAmtHtml : String
  otherFeeAmtHtml : String
  discountHtml : String
  totalHtml : String
deriving DecidableEq

/-- The `calculateAmount` helper inside `calculateInvoiceTotals` of
src/lib/validation.js (always called with the default 0): the cleaned
value when the amount is valid, else 0. -/
def calculateAmount (value : JSVal) : JSVal :=
  if isValidAmount value then cleanPrice value else JSVal.num (.fin 0)

/-- `calculateInvoiceTotals` of src/lib/validation.js: resolve tax,
otherFee and discount; fold the line items' `totalWithTax` into the
subtotal left to right from 0; derive the percentage amounts (whose
computation throws on NaN operands, the tax one first) and the grand
total; format every displayed amount, the grand total being rounded to
the nearest integer first. -/
def calculateInvoiceTotals (data : InvoiceData) : Except String InvoiceTotals :=
  let tax := calculateAmount data.tax
  let otherFee := calculateAmount data.otherFee
  let discount := calculateAmount data.discount
  let subtotal := data.tables.foldl (fun acc row => jsAddN acc row.totalWithTax) (.fin 0)
  match calculatePercentage (.num subtotal) tax with
  | Except.error e => Except.error e
  | Except.ok taxAmt =>
    match calculatePercentage (.num subtotal) otherFee with
    | Except.error e => Except.error e
    | Except.ok otherFeeAmt =>
      let total := jsSubN (jsAddN (jsAddN subtotal taxAmt) otherFeeAmt) (toNumber discount)
      Except.ok
        { subtotal := subtotal
          tax := tax
          taxAmt := taxAmt
          discount := discount
          otherFee := otherFee
          otherFeeAmt := otherFeeAmt
          total := total
          subtotalHtml := formatPrice (.num subtotal) data.currency
          taxAmtHtml := formatPrice (.num taxAmt) data.currency
          otherFeeAmtHtml := formatPrice (.num otherFeeAmt) data.currency
          discountHtml := formatPrice discount data.currency
          totalHtml := formatPrice (.num (jsRound total)) data.currency }

/-- A line-terminator character, which the lazy dot of the placeholder
regular expression cannot match. -/
def lineTerm (c : Char) : Bool :=
  c == '\n' || c == '\r' || c == ' ' || c == ' '

/-- The lazy capture of the placeholder regular expression: consume
characters (none of them line terminators) up to the first closing
double brace, returning the capture and the remainder after the
closer. -/
def splitCapture : List Char → Option (List Char × List Char)
  | [] => none
  | c :: rest =>
    if c = '}' ∧ rest.head? = some '}' then some ([], rest.tail)
    else if lineTerm c then none
    else (splitCapture rest).map (fun p => (c :: p.1, p.2))

/-- JS object property lookup on the replacement data
(`hasOwnProperty` guard plus access). -/
def lookupData (data : List (String × String)) (key : String) : Option String :=
  (data.find? (fun kv => kv.1 = key)).map (fun kv => kv.2)

/-- The replacement for one matched placeholder token: the data value
when the captured name is a key, otherwise the matched text itself. -/
def tokenReplace (data : List (String × String)) (cap : List Char) : List Char :=
  match lookupData data ⟨cap⟩ with
  | some v => v.data
  | none => '{' :: '{' :: (cap ++ ['}', '}'])

/-- The global-replace scan of `replacePlaceholders` of src/index.js:
at each position, if a placeholder token starts and closes there,
replace it and continue after it; otherwise emit the character and
continue.  The fuel bounds the number of steps; the wrapper supplies
the input length, which suffices. -/
def replaceCoreF (data : List (String × String)) : Nat → List Char → List Char
  | 0, cs => cs
  | _ + 1, [] => []
  | f + 1, c :: rest =>
    if c = '{' ∧ rest.head? = some '{' then
      match splitCapture rest.tail with
      | some (cap, rest2) => tokenReplace data cap ++ replaceCoreF data f rest2
      | none => c :: replaceCoreF data f rest
    else c :: replaceCoreF data f rest

/-- `replacePlaceholders` of src/index.js over a data record modelled
as an association list. -/
def replacePlaceholders (html : String) (data : List (String × String)) : String :=
  ⟨replaceCoreF data html.data.length html.data⟩

/-- The tax rate as the specification describes it (the amended claim
C2): the serviceTax number itself when it is greater than 0, otherwise
0.  Written from the spec's words, for comparison with the source's
`isValidAmount`-guarded computation. -/
def specTaxRate (serviceTax : JSNum) : JSNum :=
  match serviceTax with
  | .fin q => if 0 < q then .fin q else .fin 0
  | .posInf => .posInf
  | _ => .fin 0

section

attribute [local semireducible] Rat.add Rat.mul Rat.inv Rat.sub Rat.ofScientific

theorem strAppendData (a b : String) : (a ++ b).data = a.data ++ b.data := rfl

theorem strEmptyAppend (s : String) : "" ++ s = s := rfl

theorem numberIsNaN_num (n : JSNum) : numberIsNaN (JSVal.num n) = true ↔ n = JSNum.nan := by
  cases n <;> simp [numberIsNaN]

theorem toFixed2_ne_empty (n : JSNum) : toFixed2 n ≠ "" := by
  cases n <;> simp [toFixed2]
  case fin q =>
    intro h
    have hd := congrArg String.data h
    rw [strAppendData, strAppendData, strAppendData] at hd
    simp [twoDigits] at hd

theorem formatPrice_eq (value : JSVal) (currency : String) :
    formatPrice value currency =
      getCurrencySymbol currency ++ toFixed2 (parseFloatVal value) := by
  unfold formatPrice
  by_cases h : getCurrencySymbol currency = ""
  · simp [h, toFixed2_ne_empty, String.join, strEmptyAppend]
  · simp [h, toFixed2_ne_empty, String.join, strEmptyAppend]

/-- Claim C5: for all number arguments value and percent,
`calculatePercentage` fails with the arithmetic error exactly when
either argument is NaN, and otherwise returns value * percent / 100. -/
theorem calculatePercentage_spec (v p : JSNum) :
    (calculatePercentage (.num v) (.num p) =
        Except.error "Both \x27value\x27 and \x27percent\x27 must be valid numbers."
      ↔ (v = JSNum.nan ∨ p = JSNum.nan)) ∧
    (v ≠ JSNum.nan → p ≠ JSNum.nan →
      calculatePercentage (.num v) (.num p) =
        Except.ok (jsDivN (jsMulN v p) (JSNum.fin 100))) := by
  unfold calculatePercentage
  constructor
  · constructor
    · intro h
      by_contra hc
      push_neg at hc
      rw [if_neg] at h
      · exact Except.noConfusion h
      · simp [numberIsNaN_num, hc.1, hc.2]
    · intro h
      rw [if_pos]
      rcases h with h | h <;> simp [numberIsNaN_num, h]
  · intro hv hp
    rw [if_neg]
    · rfl
    · simp [numberIsNaN_num, hv, hp]

/-- Witness for C5 at value 50 and percent 10: no error is raised and
the result evaluates to 5. -/
theorem calculatePercentage_spec_witness :
    calculatePercentage (.num (JSNum.fin 50)) (.num (JSNum.fin 10)) =
        Except.ok (jsDivN (jsMulN (JSNum.fin 50) (JSNum.fin 10)) (JSNum.fin 100)) ∧
      jsDivN (jsMulN (JSNum.fin 50) (JSNum.fin 10)) (JSNum.fin 100) = JSNum.fin 5 :=
  ⟨(calculatePercentage_spec (JSNum.fin 50) (JSNum.fin 10)).2
      (by decide) (by decide),
    by decide⟩

/-- Claim C9: `formatPrice` returns the currency symbol followed by the
value fixed to two decimals, with the symbol omitted (and no error)
when the code is unknown; in particular 19.999 in gbp renders as
"£20.00" and 5 in the unknown code xyz renders as "5.00". -/
theorem formatPrice_spec (v : JSNum) (code : String) :
    (formatPrice (.num v) code = getCurrencySymbol code ++ toFixed2 v) ∧
    (getCurrencySymbol code = "" → formatPrice (.num v) code = toFixed2 v) ∧
    formatPrice (.num (JSNum.fin (19999 / 1000))) "gbp" = "£20.00" ∧
    formatPrice (.num (JSNum.fin 5)) "xyz" = "5.00" ∧
    getCurrencySymbol "xyz" = "" := by
  refine ⟨formatPrice_eq (.num v) code, ?_, by decide, by decide, by decide⟩
  intro h
  rw [formatPrice_eq (.num v) code, h, strEmptyAppend]
  rfl

/-- Witness for C9: at the unknown code xyz the symbol lookup is empty
and the format of 5 is exactly the two-decimal rendering "5.00". -/
theorem formatPrice_spec_witness :
    formatPrice (.num (JSNum.fin 5)) "xyz" = toFixed2 (JSNum.fin 5) ∧
      toFixed2 (JSNum.fin 5) = "5.00" :=
  ⟨(formatPrice_spec (JSNum.fin 5) "xyz").2.1 (by decide), by decide⟩

theorem parseInt_shape (s : String) :
    parseInt s = JSNum.nan ∨ ∃ n : ℤ, parseInt s = JSNum.fin (n : ℚ) := by
  unfold parseInt
  dsimp only
  split
  · exact Or.inl rfl
  · exact Or.inr ⟨_, rfl⟩

/-- Counterexample to claim C3: the empty price cell is accepted by
`validatePrice` although it does not parse as a number at all
(`parseFloat` of it is NaN and `cleanPrice` yields null), and the
price cell "Infinity" is accepted although it parses to an infinite
value. -/
theorem validate_price_counterexample :
    validatePrice (JSVal.str "") = true ∧ parseFloat "" = JSNum.nan ∧
      cleanPrice (JSVal.str "") = JSVal.null ∧
      validatePrice (JSVal.str "Infinity") = true ∧
      parseFloat "Infinity" = JSNum.posInf := by
  refine ⟨by decide, by decide, by decide, by decide, by decide⟩

theorem validatePrice_str (s : String) :
    validatePrice (JSVal.str s) = true ↔ (s = "" ∨ parseFloat s ≠ JSNum.nan) := by
  by_cases hs : s = ""
  · subst hs
    decide
  · simp only [validatePrice, cleanPrice, isEmptyVal]
    cases h : parseFloat s <;> simp [h, hs, numberIsNaN]

theorem validateQty_str (s : String) :
    validateQty (JSVal.str s) = true ↔ (s ≠ "" ∧ parseInt s ≠ JSNum.nan) := by
  by_cases hs : s = ""
  · subst hs
    decide
  · simp only [validateQty, cleanNumber, isEmptyVal]
    rcases parseInt_shape s with h | ⟨n, h⟩ <;>
      simp [h, hs, numberIsNaN, numberIsInteger]

/-- Claim C3 (amended): row validation accepts a price cell exactly
when it is empty or `parseFloat` of it is not NaN (an infinite parse
included), and accepts a qty cell exactly when it is non-empty and
`parseInt` of it is not NaN — in which case that parse is always a
finite integer. -/
theorem validate_accepts_iff (s : String) :
    (validatePrice (JSVal.str s) = true ↔ (s = "" ∨ parseFloat s ≠ JSNum.nan)) ∧
    (validateQty (JSVal.str s) = true ↔ (s ≠ "" ∧ parseInt s ≠ JSNum.nan)) ∧
    (validateQty (JSVal.str s) = true → ∃ n : ℤ, parseInt s = JSNum.fin (n : ℚ)) := by
  refine ⟨validatePrice_str s, validateQty_str s, ?_⟩
  intro hq
  rcases parseInt_shape s with h | ⟨n, h⟩
  · exact absurd h ((validateQty_str s).mp hq).2
  · exact ⟨n, h⟩

/-- Witness for C3 (amended) at the qty cell "7": validation accepts
it and its parse is the finite integer 7. -/
theorem validate_accepts_iff_witness :
    ∃ n : ℤ, parseInt "7" = JSNum.fin (n : ℚ) :=
  (validate_accepts_iff "7").2.2 (by decide)

theorem rowErrors_nil_iff (i : Nat) (r : Row) :
    rowErrors i r = [] ↔
      ((r.price = JSVal.undefined ∨ validatePrice r.price = true) ∧
       (r.qty = JSVal.undefined ∨ validateQty r.qty = true)) := by
  unfold rowErrors
  split_ifs with h1 h2 h2
  all_goals simp_all [not_and_or, Bool.not_eq_false]
  all_goals tauto

theorem collectRowErrors_nil_iff (i : Nat) (data : List Row) :
    collectRowErrors i data = [] ↔
      ∀ r ∈ data, ((r.price = JSVal.undefined ∨ validatePrice r.price = true) ∧
        (r.qty = JSVal.undefined ∨ validateQty r.qty = true)) := by
  induction data generalizing i with
  | nil => simp [collectRowErrors]
  | cons r rest ih =>
    simp only [collectRowErrors, List.append_eq_nil, List.forall_mem_cons,
      rowErrors_nil_iff, ih]

/-- Claim C4: `validateDataRows` succeeds exactly when every present
cell validates; on any violation it fails with a single error joining
one message per offending cell across all rows, each message carrying
the 1-based row index; in particular one row with price "ten" reports
exactly "Object 1: Invalid Price", and a second row with qty "x"
additionally reports "Object 2: Invalid Qty" in the same error. -/
theorem validateDataRows_spec (data : List Row) :
    (validateDataRows data = Except.ok () ↔
      ∀ r ∈ data, ((r.price = JSVal.undefined ∨ validatePrice r.price = true) ∧
        (r.qty = JSVal.undefined ∨ validateQty r.qty = true))) ∧
    (collectRowErrors 0 data ≠ [] →
      validateDataRows data = Except.error (joinLines (collectRowErrors 0 data))) ∧
    validateDataRows [{ item := JSVal.str "A", price := JSVal.str "ten", qty := JSVal.str "2" }] =
      Except.error "Object 1: Invalid Price" ∧
    validateDataRows
        [{ item := JSVal.str "A", price := JSVal.str "ten", qty := JSVal.str "2" },
         { item := JSVal.str "B", price := JSVal.str "3", qty := JSVal.str "x" }] =
      Except.error ("Object 1: Invalid Price" ++ "\n" ++ "Object 2: Invalid Qty") := by
  refine ⟨?_, ?_, by decide, by decide⟩
  · dsimp only [validateDataRows]
    rw [← collectRowErrors_nil_iff 0 data]
    split_ifs with h <;> simp_all [List.isEmpty_iff]
  · intro h
    dsimp only [validateDataRows]
    rw [if_neg]
    simp [List.isEmpty_iff, h]

/-- Witness for C4: on the one-row table with price "ten" the error is
exactly the join of the collected per-cell messages. -/
theorem validateDataRows_spec_witness :
    validateDataRows [{ item := JSVal.str "A", price := JSVal.str "ten", qty := JSVal.str "2" }] =
      Except.error (joinLines (collectRowErrors 0
        [{ item := JSVal.str "A", price := JSVal.str "ten", qty := JSVal.str "2" }])) :=
  (validateDataRows_spec _).2.1 (by decide)

theorem exceptBindOk {ε α β : Type} (a : α) (f : α → Except ε β) :
    (Except.ok a >>= f : Except ε β) = f a := rfl

theorem exceptBindErr {ε α β : Type} (e : ε) (f : α → Except ε β) :
    (Except.error e >>= f : Except ε β) = Except.error e := rfl

theorem unitRowCalc_ok_frame (currency : String) (serviceTax : JSVal) (row : Row)
    (u : UnitRow) (h : unitRowCalc currency serviceTax row = Except.ok u) :
    u.item = row.item ∧ u.qty = row.qty := by
  dsimp only [unitRowCalc] at h
  split at h
  · exact Except.noConfusion h
  · injection h with h
    subst h
    exact ⟨rfl, rfl⟩

/-- Claim C10: `calculateUnitTotals` maps its input one to one — the
output has the same length and order, and each output row keeps the
corresponding input row's item and qty fields unchanged. -/
theorem calculateUnitTotals_frame (data : List Row) (currency : String)
    (serviceTax : JSVal) (out : List UnitRow)
    (h : calculateUnitTotals data currency serviceTax = Except.ok out) :
    out.length = data.length ∧
      out.map (fun r => (r.item, r.qty)) = data.map (fun r => (r.item, r.qty)) := by
  induction data generalizing out with
  | nil =>
    dsimp only [calculateUnitTotals] at h
    injection h with h
    subst h
    exact ⟨rfl, rfl⟩
  | cons row rest ih =>
    dsimp only [calculateUnitTotals] at h
    cases hu : unitRowCalc currency serviceTax row with
    | error e =>
      rw [hu, exceptBindErr] at h
      exact Except.noConfusion h
    | ok u =>
      rw [hu, exceptBindOk] at h
      cases hr : calculateUnitTotals rest currency serviceTax with
      | error e =>
        rw [hr, exceptBindErr] at h
        exact Except.noConfusion h
      | ok us =>
        rw [hr, exceptBindOk] at h
        injection h with h
        subst h
        obtain ⟨hi, hq⟩ := unitRowCalc_ok_frame currency serviceTax row u hu
        obtain ⟨hl, hm⟩ := ih us hr
        refine ⟨by simp [hl], ?_⟩
        simp [hi, hq, hm]

/-- Witness for C10 on a concrete two-row table: the output rows carry
the input items and quantities in order. -/
theorem calculateUnitTotals_frame_witness :
    [{ item := JSVal.str "w1", price := JSVal.num (JSNum.fin 3), qty := JSVal.num (JSNum.fin 4),
        total := JSNum.fin 12, priceHtml := "$3.00", totalHtml := "$12.00",
        priceWithTax := JSNum.fin (33 / 10), totalWithTax := JSNum.fin (66 / 5),
        priceHtmlWithTax := "$3.30", totalHtmlWithTax := "$13.20" },
      { item := JSVal.str "w2", price := JSVal.num (JSNum.fin 5), qty := JSVal.num (JSNum.fin 6),
        total := JSNum.fin 30, priceHtml := "$5.00", totalHtml := "$30.00",
        priceWithTax := JSNum.fin (11 / 2), totalWithTax := JSNum.fin 33,
        priceHtmlWithTax := "$5.50", totalHtmlWithTax := "$33.00" }
      ].map (fun r : UnitRow => (r.item, r.qty)) =
      [{ item := JSVal.str "w1", price := JSVal.num (JSNum.fin 3), qty := JSVal.num (JSNum.fin 4) },
       { item := JSVal.str "w2", price := JSVal.num (JSNum.fin 5), qty := JSVal.num (JSNum.fin 6) }
      ].map (fun r : Row => (r.item, r.qty)) :=
  (calculateUnitTotals_frame
    [{ item := JSVal.str "w1", price := JSVal.num (JSNum.fin 3), qty := JSVal.num (JSNum.fin 4) },
     { item := JSVal.str "w2", price := JSVal.num (JSNum.fin 5), qty := JSVal.num (JSNum.fin 6) }]
    "usd" (JSVal.num (JSNum.fin 10)) _ (by decide)).2

theorem specTaxRate_ne_nan (st : JSNum) : specTaxRate st ≠ JSNum.nan := by
  cases st <;> simp [specTaxRate]
  case fin q => split_ifs <;> simp

theorem taxRate_num (st : JSNum) :
    (if isValidAmount (JSVal.num st) then cleanPrice (JSVal.num st)
      else JSVal.num (JSNum.fin 0)) = JSVal.num (specTaxRate st) := by
  cases st <;>
    simp [isValidAmount, cleanPrice, isEmptyVal, numberIsNaN, jsGtZero, toNumber, specTaxRate]
  case fin q => split_ifs <;> rfl

theorem unitRowCalc_num_eq (it : JSVal) (p q : ℚ) (st : JSNum) (cur : String) :
    unitRowCalc cur (JSVal.num st)
        { item := it, price := JSVal.num (JSNum.fin p), qty := JSVal.num (JSNum.fin q) } =
      Except.ok
        { item := it, price := JSVal.num (JSNum.fin p), qty := JSVal.num (JSNum.fin q),
          total := jsMulN (JSNum.fin q) (JSNum.fin p),
          priceHtml := formatPrice (JSVal.num (JSNum.fin p)) cur,
          totalHtml := formatPrice (JSVal.num (jsMulN (JSNum.fin q) (JSNum.fin p))) cur,
          priceWithTax := jsAddN (JSNum.fin p)
            (jsDivN (jsMulN (JSNum.fin p) (specTaxRate st)) (JSNum.fin 100)),
          totalWithTax := jsMulN (JSNum.fin q) (jsAddN (JSNum.fin p)
            (jsDivN (jsMulN (JSNum.fin p) (specTaxRate st)) (JSNum.fin 100))),
          priceHtmlWithTax := formatPrice (JSVal.num (jsAddN (JSNum.fin p)
            (jsDivN (jsMulN (JSNum.fin p) (specTaxRate st)) (JSNum.fin 100)))) cur,
          totalHtmlWithTax := formatPrice (JSVal.num (jsMulN (JSNum.fin q) (jsAddN (JSNum.fin p)
            (jsDivN (jsMulN (JSNum.fin p) (specTaxRate st)) (JSNum.fin 100))))) cur } := by
  have hclean : cleanPrice (JSVal.num (JSNum.fin p)) = JSVal.num (JSNum.fin p) := by
    simp [cleanPrice, isEmptyVal]
  have hnn : numberIsNaN (JSVal.num (specTaxRate st)) = false := by
    cases h : specTaxRate st
    · exact absurd h (specTaxRate_ne_nan st)
    all_goals rfl
  dsimp only [unitRowCalc]
  rw [taxRate_num, hclean]
  unfold calculatePercentage
  have hside : ¬ ((numberIsNaN (JSVal.num (JSNum.fin p)) ||
      numberIsNaN (JSVal.num (specTaxRate st))) = true) := by
    rw [Bool.or_eq_true]
    rintro (hc | hc)
    · exact absurd hc (by simp [numberIsNaN])
    · rw [hnn] at hc
      exact Bool.noConfusion hc
  rw [if_neg hside]
  rfl

/-- Counterexample to claim C2: with serviceTax = Infinity (a number
greater than 0 but not finite) the tax rate applied is Infinity rather
than the claimed 0, so priceWithTax is infinite instead of the finite
price; and with serviceTax = -50 the claimed unconditional identity
totalWithTax = qty * (price + price * serviceTax / 100) fails, since
the code clamps negative rates to 0 (totalWithTax is 1, the formula
gives 1/2). -/
theorem unit_totals_counterexample :
    ((calculateUnitTotals
        [{ item := JSVal.str "A", price := JSVal.num (JSNum.fin 100),
           qty := JSVal.num (JSNum.fin 1) }] "usd"
        (JSVal.num JSNum.posInf)).map (List.map (fun r => r.priceWithTax)) =
      Except.ok [JSNum.posInf]) ∧
    ((calculateUnitTotals
        [{ item := JSVal.str "A", price := JSVal.num (JSNum.fin 1),
           qty := JSVal.num (JSNum.fin 1) }] "usd"
        (JSVal.num (JSNum.fin (-50)))).map (List.map (fun r => r.totalWithTax)) =
      Except.ok [JSNum.fin 1]) ∧
    JSNum.fin 1 ≠ JSNum.fin (1 * (1 + 1 * (-50) / 100)) := by
  refine ⟨by decide, by decide, by decide⟩

/-- Claim C2 (amended): for a row with numeric price and qty and a
number serviceTax, `calculateUnitTotals` computes per row a tax rate
equal to serviceTax when serviceTax is greater than 0 (finite or
Infinity) and 0 otherwise, priceWithTax = price + price * taxRate /
100, and totalWithTax = qty * priceWithTax; equivalently, for rows
with qty ≥ 0 and price ≥ 0 and a finite serviceTax ≥ 0, totalWithTax =
qty * (price + price * serviceTax / 100) exactly. -/
theorem calculateUnitTotals_tax (it : JSVal) (p q : ℚ) (st : JSNum) (cur : String) :
    ((calculateUnitTotals
        [{ item := it, price := JSVal.num (JSNum.fin p), qty := JSVal.num (JSNum.fin q) }]
        cur (JSVal.num st)).map
          (List.map (fun r => (r.priceWithTax, r.totalWithTax))) =
      Except.ok
        [(jsAddN (JSNum.fin p) (jsDivN (jsMulN (JSNum.fin p) (specTaxRate st)) (JSNum.fin 100)),
          jsMulN (JSNum.fin q) (jsAddN (JSNum.fin p)
            (jsDivN (jsMulN (JSNum.fin p) (specTaxRate st)) (JSNum.fin 100))))]) ∧
    (∀ s : ℚ, st = JSNum.fin s → 0 ≤ s → 0 ≤ p → 0 ≤ q →
      (calculateUnitTotals
          [{ item := it, price := JSVal.num (JSNum.fin p), qty := JSVal.num (JSNum.fin q) }]
          cur (JSVal.num st)).map (List.map (fun r => r.totalWithTax)) =
        Except.ok [JSNum.fin (q * (p + p * s / 100))]) := by
  constructor
  · dsimp only [calculateUnitTotals]
    rw [unitRowCalc_num_eq, exceptBindOk]
    rfl
  · intro s hst _ _ _
    subst hst
    dsimp only [calculateUnitTotals]
    rw [unitRowCalc_num_eq, exceptBindOk]
    have h100 : (100 : ℚ) ≠ 0 := by norm_num
    by_cases hs0 : 0 < s
    · simp only [specTaxRate, if_pos hs0, jsMulN, jsDivN, if_neg h100, jsAddN]
      rfl
    · simp only [specTaxRate, if_neg hs0, jsMulN, jsDivN, if_neg h100, jsAddN]
      have : s = 0 := le_antisymm (not_lt.mp hs0) (by assumption)
      subst this
      norm_num
      rfl

/-- Witness for C2 (amended) at price 10, qty 2, serviceTax 20: the
equivalently-stated identity evaluates to totalWithTax = 24. -/
theorem calculateUnitTotals_tax_witness :
    (calculateUnitTotals
        [{ item := JSVal.str "A", price := JSVal.num (JSNum.fin 10),
           qty := JSVal.num (JSNum.fin 2) }] "usd"
        (JSVal.num (JSNum.fin 20))).map (List.map (fun r => r.totalWithTax)) =
      Except.ok [JSNum.fin (2 * (10 + 10 * 20 / 100))] :=
  (calculateUnitTotals_tax (JSVal.str "A") 10 2 (JSNum.fin 20) "usd").2 20 rfl
    (by norm_num) (by norm_num) (by norm_num)

theorem calculatePercentage_ok_inv (a b : JSVal) (r : JSNum)
    (h : calculatePercentage a b = Except.ok r) :
    r = jsDivN (jsMulN (toNumber a) (toNumber b)) (JSNum.fin 100) := by
  unfold calculatePercentage at h
  split_ifs at h
  exact (Except.ok.inj h).symm

theorem invoiceTotals_fields (d : InvoiceData) (t : InvoiceTotals)
    (h : calculateInvoiceTotals d = Except.ok t) :
    t.tax = calculateAmount d.tax ∧ t.otherFee = calculateAmount d.otherFee ∧
      t.discount = calculateAmount d.discount ∧
      t.subtotal = d.tables.foldl (fun acc row => jsAddN acc row.totalWithTax) (JSNum.fin 0) ∧
      t.taxAmt = jsDivN (jsMulN t.subtotal (toNumber t.tax)) (JSNum.fin 100) ∧
      t.otherFeeAmt = jsDivN (jsMulN t.subtotal (toNumber t.otherFee)) (JSNum.fin 100) ∧
      t.total = jsSubN (jsAddN (jsAddN t.subtotal t.taxAmt) t.otherFeeAmt) (toNumber t.discount) ∧
      t.subtotalHtml = formatPrice (.num t.subtotal) d.currency ∧
      t.taxAmtHtml = formatPrice (.num t.taxAmt) d.currency ∧
      t.otherFeeAmtHtml = formatPrice (.num t.otherFeeAmt) d.currency ∧
      t.discountHtml = formatPrice t.discount d.currency ∧
      t.totalHtml = formatPrice (.num (jsRound t.total)) d.currency := by
  dsimp only [calculateInvoiceTotals] at h
  split at h
  next e htax => exact Except.noConfusion h
  next taxAmt htax =>
    split at h
    next e hfee => exact Except.noConfusion h
    next feeAmt hfee =>
      injection h with h
      subst h
      have h1 := calculatePercentage_ok_inv _ _ _ htax
      have h2 := calculatePercentage_ok_inv _ _ _ hfee
      subst h1
      subst h2
      exact ⟨rfl, rfl, rfl, rfl, rfl, rfl, rfl, rfl, rfl, rfl, rfl, rfl⟩

/-- Claim C1: on every successful run, `calculateInvoiceTotals`
returns subtotal equal to the left-to-right fold of totalWithTax over
the line items starting from 0, taxAmt = subtotal * tax / 100 and
otherFeeAmt = subtotal * otherFee / 100 for the resolved rates, total
= subtotal + taxAmt + otherFeeAmt - discount, and the displayed total
is rounded to the nearest integer before two-decimal formatting while
every other displayed amount is formatted unrounded with two
decimals. -/
theorem calculateInvoiceTotals_spec (d : InvoiceData) (t : InvoiceTotals)
    (h : calculateInvoiceTotals d = Except.ok t) :
    t.subtotal = d.tables.foldl (fun acc row => jsAddN acc row.totalWithTax) (JSNum.fin 0) ∧
    t.taxAmt = jsDivN (jsMulN t.subtotal (toNumber t.tax)) (JSNum.fin 100) ∧
    t.otherFeeAmt = jsDivN (jsMulN t.subtotal (toNumber t.otherFee)) (JSNum.fin 100) ∧
    t.total = jsSubN (jsAddN (jsAddN t.subtotal t.taxAmt) t.otherFeeAmt) (toNumber t.discount) ∧
    t.totalHtml = getCurrencySymbol d.currency ++ toFixed2 (jsRound t.total) ∧
    t.subtotalHtml = getCurrencySymbol d.currency ++ toFixed2 t.subtotal ∧
    t.taxAmtHtml = getCurrencySymbol d.currency ++ toFixed2 t.taxAmt ∧
    t.otherFeeAmtHtml = getCurrencySymbol d.currency ++ toFixed2 t.otherFeeAmt ∧
    t.discountHtml = getCurrencySymbol d.currency ++ toFixed2 (parseFloatVal t.discount) := by
  obtain ⟨-, -, -, hsub, htax, hfee, htot, hsh, hth, hfh, hdh, hth2⟩ :=
    invoiceTotals_fields d t h
  refine ⟨hsub, htax, hfee, htot, ?_, ?_, ?_, ?_, ?_⟩
  · rw [hth2, formatPrice_eq]
    rfl
  · rw [hsh, formatPrice_eq]
    rfl
  · rw [hth, formatPrice_eq]
    rfl
  · rw [hfh, formatPrice_eq]
    rfl
  · rw [hdh, formatPrice_eq]

/-- Witness for C1 on a one-line invoice (totalWithTax 100, tax 10,
otherFee 5, discount 20): the run succeeds and the subtotal is the
fold of the line items' totalWithTax. -/
theorem calculateInvoiceTotals_spec_witness :
    ({ subtotal := JSNum.fin 100, tax := JSVal.num (JSNum.fin 10),
        taxAmt := JSNum.fin 10, discount := JSVal.num (JSNum.fin 20),
        otherFee := JSVal.num (JSNum.fin 5), otherFeeAmt := JSNum.fin 5,
        total := JSNum.fin 95, subtotalHtml := "$100.00", taxAmtHtml := "$10.00",
        otherFeeAmtHtml := "$5.00", discountHtml := "$20.00",
        totalHtml := "$95.00" } : InvoiceTotals).subtotal =
      [({ item := JSVal.str "A", price := JSVal.num (JSNum.fin 50),
          qty := JSVal.num (JSNum.fin 2), total := JSNum.fin 100,
          priceHtml := "$50.00", totalHtml := "$100.00",
          priceWithTax := JSNum.fin 50, totalWithTax := JSNum.fin 100,
          priceHtmlWithTax := "$50.00", totalHtmlWithTax := "$100.00" } : UnitRow)
        ].foldl (fun acc row => jsAddN acc row.totalWithTax) (JSNum.fin 0) :=
  (calculateInvoiceTotals_spec
    { tables :=
        [({ item := JSVal.str "A", price := JSVal.num (JSNum.fin 50),
            qty := JSVal.num (JSNum.fin 2), total := JSNum.fin 100,
            priceHtml := "$50.00", totalHtml := "$100.00",
            priceWithTax := JSNum.fin 50, totalWithTax := JSNum.fin 100,
            priceHtmlWithTax := "$50.00", totalHtmlWithTax := "$100.00" } : UnitRow)],
      tax := JSVal.num (JSNum.fin 10), otherFee := JSVal.num (JSNum.fin 5),
      discount := JSVal.num (JSNum.fin 20), currency := "usd" }
    _ (by decide)).1

/-- Claim C7: in `calculateInvoiceTotals` the configured tax, otherFee
and discount each resolve through `calculateAmount`, which yields 0
for an absent (undefined or null), NaN, or nonpositive configured
value and the configured numeric value otherwise. -/
theorem invoiceTotals_resolution (d : InvoiceData) (t : InvoiceTotals)
    (h : calculateInvoiceTotals d = Except.ok t) :
    (t.tax = calculateAmount d.tax ∧ t.otherFee = calculateAmount d.otherFee ∧
      t.discount = calculateAmount d.discount) ∧
    (∀ v : JSVal, (v = JSVal.undefined ∨ v = JSVal.null ∨ v = JSVal.num JSNum.nan ∨
      v = JSVal.num JSNum.negInf) → calculateAmount v = JSVal.num (JSNum.fin 0)) ∧
    (∀ x : ℚ, x ≤ 0 → calculateAmount (JSVal.num (JSNum.fin x)) = JSVal.num (JSNum.fin 0)) ∧
    (∀ x : ℚ, 0 < x → calculateAmount (JSVal.num (JSNum.fin x)) = JSVal.num (JSNum.fin x)) ∧
    calculateAmount (JSVal.num JSNum.posInf) = JSVal.num JSNum.posInf := by
  have hca : ∀ st : JSNum, calculateAmount (JSVal.num st) = JSVal.num (specTaxRate st) :=
    fun st => taxRate_num st
  obtain ⟨h1, h2, h3, -⟩ := invoiceTotals_fields d t h
  refine ⟨⟨h1, h2, h3⟩, ?_, ?_, ?_, ?_⟩
  · rintro v (rfl | rfl | rfl | rfl) <;> decide
  · intro x hx
    rw [hca, specTaxRate]
    simp [not_lt.mpr hx]
  · intro x hx
    rw [hca, specTaxRate]
    simp [hx]
  · rw [hca]
    rfl

/-- Witness for C7 on a concrete invoice whose configured tax is the
negative number -3: the resolved tax is 0. -/
theorem invoiceTotals_resolution_witness :
    ({ subtotal := JSNum.fin 0, tax := JSVal.num (JSNum.fin 0),
        taxAmt := JSNum.fin 0, discount := JSVal.num (JSNum.fin 0),
        otherFee := JSVal.num (JSNum.fin 0), otherFeeAmt := JSNum.fin 0,
        total := JSNum.fin 0, subtotalHtml := "$0.00", taxAmtHtml := "$0.00",
        otherFeeAmtHtml := "$0.00", discountHtml := "$0.00",
        totalHtml := "$0.00" } : InvoiceTotals).tax =
      calculateAmount (JSVal.num (JSNum.fin (-3))) :=
  ((invoiceTotals_resolution
    { tables := [], tax := JSVal.num (JSNum.fin (-3)), otherFee := JSVal.num (JSNum.fin 0),
      discount := JSVal.num (JSNum.fin 0), currency := "usd" }
    _ (by decide)).1).1

theorem getCol_error_head (row : RawRow) (c e : String)
    (h : getCol row c = Except.error e) : e.data.head? = some 'M' := by
  unfold getCol at h
  split at h
  · exact Except.noConfusion h
  · injection h with h
    subst h
    rfl

theorem validateRowColumns_error_head (row : RawRow) (e : String)
    (h : validateRowColumns row = Except.error e) : e.data.head? = some 'M' := by
  unfold validateRowColumns at h
  cases h1 : getCol row "item" with
  | error e1 =>
    rw [h1, exceptBindErr] at h
    injection h with h
    subst h
    exact getCol_error_head _ _ _ h1
  | ok v1 =>
    rw [h1, exceptBindOk] at h
    cases h2 : getCol row "price" with
    | error e2 =>
      rw [h2, exceptBindErr] at h
      injection h with h
      subst h
      exact getCol_error_head _ _ _ h2
    | ok v2 =>
      rw [h2, exceptBindOk] at h
      cases h3 : getCol row "qty" with
      | error e3 =>
        rw [h3, exceptBindErr] at h
        injection h with h
        subst h
        exact getCol_error_head _ _ _ h3
      | ok v3 =>
        rw [h3, exceptBindOk] at h
        exact Except.noConfusion h

theorem validateAndFilterColumns_error_head (data : List RawRow) (e : String)
    (h : validateAndFilterColumns data = Except.error e) : e.data.head? = some 'M' := by
  induction data with
  | nil => exact Except.noConfusion h
  | cons row rest ih =>
    dsimp only [validateAndFilterColumns] at h
    cases h1 : validateRowColumns row with
    | error e1 =>
      rw [h1, exceptBindErr] at h
      injection h with h
      subst h
      exact validateRowColumns_error_head _ _ h1
    | ok r =>
      rw [h1, exceptBindOk] at h
      cases h2 : validateAndFilterColumns rest with
      | error e2 =>
        rw [h2, exceptBindErr] at h
        injection h with h
        subst h
        exact ih h2
      | ok rs =>
        rw [h2, exceptBindOk] at h
        exact Except.noConfusion h

theorem rowErrors_head (i : Nat) (r : Row) (e : String) (he : e ∈ rowErrors i r) :
    e.data.head? = some 'O' := by
  unfold rowErrors at he
  rcases List.mem_append.mp he with h | h
  · split_ifs at h
    · rw [List.mem_singleton.mp h]
      rfl
    · exact absurd h (List.not_mem_nil e)
  · split_ifs at h
    · rw [List.mem_singleton.mp h]
      rfl
    · exact absurd h (List.not_mem_nil e)

theorem collectRowErrors_head (i : Nat) (data : List Row) (e : String)
    (he : e ∈ collectRowErrors i data) : e.data.head? = some 'O' := by
  induction data generalizing i with
  | nil => exact absurd he (List.not_mem_nil e)
  | cons r rest ih =>
    dsimp only [collectRowErrors] at he
    rcases List.mem_append.mp he with h | h
    · exact rowErrors_head i r e h
    · exact ih (i + 1) h

theorem joinLines_head (l : List String) (hl : l ≠ [])
    (hh : ∀ e ∈ l, e.data.head? = some 'O') : (joinLines l).data.head? = some 'O' := by
  cases l with
  | nil => exact absurd rfl hl
  | cons a rest =>
    cases rest with
    | nil => exact hh a (List.mem_cons_self a [])
    | cons b r2 =>
      have ha := hh a (List.mem_cons_self a (b :: r2))
      show ((a ++ "\n") ++ joinLines (b :: r2)).data.head? = some 'O'
      rw [strAppendData, strAppendData]
      cases hd : a.data with
      | nil => rw [hd] at ha; exact Option.noConfusion ha
      | cons c cs =>
        rw [hd] at ha
        simpa using ha

theorem validateDataRows_error_head (data : List Row) (e : String)
    (h : validateDataRows data = Except.error e) : e.data.head? = some 'O' := by
  dsimp only [validateDataRows] at h
  split_ifs at h with hc
  injection h with h
  subst h
  exact joinLines_head _ (by simpa [List.isEmpty_iff] using hc)
    (fun e2 he2 => collectRowErrors_head 0 data e2 he2)

theorem isValidAmount_parts (v : JSVal) (h : isValidAmount v = true) :
    numberIsNaN (cleanPrice v) = false := by
  unfold isValidAmount at h
  split_ifs at h
  simp only [Bool.and_eq_true, Bool.not_eq_true'] at h
  exact h.1

theorem calculateAmount_not_nan (v : JSVal) : numberIsNaN (calculateAmount v) = false := by
  unfold calculateAmount
  split_ifs with h
  · exact isValidAmount_parts v h
  · rfl

theorem calculatePercentage_error_nan (a b : JSVal) (e : String)
    (h : calculatePercentage a b = Except.error e) :
    numberIsNaN a = true ∨ numberIsNaN b = true := by
  unfold calculatePercentage at h
  split_ifs at h with hc
  exact (Bool.or_eq_true _ _).mp hc

theorem calculatePercentage_ok_of (a b : JSVal) (ha : numberIsNaN a = false)
    (hb : numberIsNaN b = false) :
    calculatePercentage a b =
      Except.ok (jsDivN (jsMulN (toNumber a) (toNumber b)) (JSNum.fin 100)) := by
  unfold calculatePercentage
  rw [ha, hb]
  rfl

theorem calculateInvoiceTotals_emptyTables (tax fee disc : JSVal) (cur : String) :
    ∃ t, calculateInvoiceTotals
        { tables := [], tax := tax, otherFee := fee, discount := disc, currency := cur } =
          Except.ok t ∧ t.subtotal = JSNum.fin 0 := by
  cases hres : calculateInvoiceTotals
      { tables := [], tax := tax, otherFee := fee, discount := disc, currency := cur } with
  | ok t => exact ⟨t, rfl, (invoiceTotals_fields _ t hres).2.2.2.1⟩
  | error e =>
    exfalso
    dsimp only [calculateInvoiceTotals] at hres
    split at hres
    next e1 hp =>
      rcases calculatePercentage_error_nan _ _ _ hp with hn | hn
      · simp [numberIsNaN] at hn
      · rw [calculateAmount_not_nan] at hn
        exact Bool.noConfusion hn
    next v hp =>
      split at hres
      next e2 hp2 =>
        rcases calculatePercentage_error_nan _ _ _ hp2 with hn | hn
        · simp [numberIsNaN] at hn
        · rw [calculateAmount_not_nan] at hn
          exact Bool.noConfusion hn
      next v2 hp2 => exact Except.noConfusion hres

/-- Claim C6: `parseAndValidateTable` fails with the no-table error
exactly when the parsed document contains zero tables; a present table
with zero data rows is accepted and yields zero line items, and the
invoice totals over zero line items compute successfully with
subtotal 0. -/
theorem parseAndValidateTable_spec (jt : Option (List (List RawRow))) :
    (parseAndValidateTable jt = Except.error noTableMsg ↔ jt.getD [] = []) ∧
    parseAndValidateTable (some [[]]) = Except.ok [] ∧
    (∀ tax fee disc cur, ∃ t, calculateInvoiceTotals
        { tables := [], tax := tax, otherFee := fee, discount := disc, currency := cur } =
          Except.ok t ∧ t.subtotal = JSNum.fin 0) := by
  refine ⟨⟨?_, ?_⟩, by decide, fun tax fee disc cur =>
    calculateInvoiceTotals_emptyTables tax fee disc cur⟩
  · intro h
    by_contra hne
    rcases ht : jt.getD [] with _ | ⟨t, rest⟩
    · exact hne ht
    · dsimp only [parseAndValidateTable] at h
      rw [ht] at h
      dsimp only at h
      cases h1 : validateAndFilterColumns (t.map slugifyObjectKeys) with
      | error e1 =>
        rw [h1, exceptBindErr] at h
        injection h with h
        have hm := validateAndFilterColumns_error_head _ _ h1
        rw [h] at hm
        exact absurd hm (by decide)
      | ok f =>
        rw [h1, exceptBindOk] at h
        cases h2 : validateDataRows f with
        | error e2 =>
          rw [h2] at h
          injection h with h
          have ho := validateDataRows_error_head _ _ h2
          rw [h] at ho
          exact absurd ho (by decide)
        | ok u =>
          rw [h2] at h
          exact Except.noConfusion h
  · intro h
    dsimp only [parseAndValidateTable]
    rw [h]

/-- Witness for C6: with no parsed tables at all, the function fails
with exactly the no-table message. -/
theorem parseAndValidateTable_spec_witness :
    parseAndValidateTable none = Except.error noTableMsg :=
  (parseAndValidateTable_spec none).1.mpr rfl

theorem splitCapture_len (cs : List Char) :
    ∀ cap r, splitCapture cs = some (cap, r) → cap.length + 2 + r.length = cs.length := by
  induction cs with
  | nil => intro cap r h; exact Option.noConfusion h
  | cons c rest ih =>
    intro cap r h
    unfold splitCapture at h
    split_ifs at h with h1 h2
    · injection h with h
      obtain ⟨h3, h4⟩ := Prod.mk.injEq _ _ _ _ |>.mp h
      subst h3
      subst h4
      cases rest with
      | nil => exact absurd h1.2 (by simp)
      | cons c2 r2 =>
        simp only [List.tail_cons, List.length_nil, List.length_cons]
        omega
    · rcases ho : splitCapture rest with _ | ⟨cap2, r2⟩
      · rw [ho] at h
        exact Option.noConfusion h
      · rw [ho] at h
        simp only [Option.map_some'] at h
        injection h with h
        obtain ⟨h3, h4⟩ := Prod.mk.injEq _ _ _ _ |>.mp h
        subst h3
        subst h4
        have := ih cap2 r2 ho
        simp only [List.length_cons]
        omega

theorem splitCapture_exact (name rest : List Char)
    (h : ∀ c ∈ name, c ≠ '}' ∧ lineTerm c = false) :
    splitCapture (name ++ '}' :: '}' :: rest) = some (name, rest) := by
  induction name with
  | nil => simp [splitCapture]
  | cons c name ih =>
    have hc := h c (List.mem_cons_self c name)
    have h1 : ¬(c = '}' ∧ (name ++ '}' :: '}' :: rest).head? = some '}') :=
      fun hx => hc.1 hx.1
    have h2 : ¬(lineTerm c = true) := by
      rw [hc.2]
      exact Bool.noConfusion
    show splitCapture (c :: (name ++ '}' :: '}' :: rest)) = some (c :: name, rest)
    unfold splitCapture
    rw [if_neg h1, if_neg h2, ih (fun x hx => h x (List.mem_cons_of_mem c hx))]
    rfl

theorem replaceCoreF_fuel (data : List (String × String)) :
    ∀ f1 f2 cs, cs.length ≤ f1 → cs.length ≤ f2 →
      replaceCoreF data f1 cs = replaceCoreF data f2 cs := by
  intro f1
  induction f1 with
  | zero =>
    intro f2 cs h1 h2
    have hnil : cs = [] := List.length_eq_zero.mp (Nat.le_zero.mp h1)
    subst hnil
    cases f2 <;> rfl
  | succ f ih =>
    intro f2 cs h1 h2
    cases cs with
    | nil => cases f2 <;> rfl
    | cons c rest =>
      cases f2 with
      | zero => simp at h2
      | succ f2 =>
        simp only [List.length_cons, Nat.succ_le_succ_iff] at h1 h2
        simp only [replaceCoreF]
        by_cases hc : c = '{' ∧ rest.head? = some '{'
        · rw [if_pos hc, if_pos hc]
          rcases hs : splitCapture rest.tail with _ | ⟨cap, rest2⟩
          · dsimp only
            exact congrArg (fun x => c :: x) (ih f2 rest h1 h2)
          · dsimp only
            have hlen := splitCapture_len rest.tail cap rest2 hs
            have htl : rest.tail.length ≤ rest.length := by
              cases rest <;> simp
            exact congrArg (fun x => tokenReplace data cap ++ x)
              (ih f2 rest2 (by omega) (by omega))
        · rw [if_neg hc, if_neg hc]
          exact congrArg (fun x => c :: x) (ih f2 rest h1 h2)

theorem replaceCoreF_token (data : List (String × String)) (name rest : List Char) (f : Nat)
    (hname : ∀ c ∈ name, c ≠ '}' ∧ lineTerm c = false)
    (hf : name.length + 4 + rest.length ≤ f) :
    replaceCoreF data f ('{' :: '{' :: (name ++ '}' :: '}' :: rest)) =
      tokenReplace data name ++ replaceCoreF data rest.length rest := by
  cases f with
  | zero => exact absurd hf (by omega)
  | succ f =>
    simp only [replaceCoreF]
    rw [if_pos (by simp)]
    show (match splitCapture (name ++ '}' :: '}' :: rest) with
      | some (cap, rest2) => tokenReplace data cap ++ replaceCoreF data f rest2
      | none => '{' :: replaceCoreF data f ('{' :: (name ++ '}' :: '}' :: rest))) = _
    rw [splitCapture_exact name rest hname]
    dsimp only
    exact congrArg (fun x => tokenReplace data name ++ x)
      (replaceCoreF_fuel data f rest.length rest (by omega) (by omega))

theorem strMkAppend (a b : List Char) : (⟨a ++ b⟩ : String) = (⟨a⟩ : String) ++ (⟨b⟩ : String) := rfl

theorem replacePlaceholders_token (data : List (String × String)) (name restS : String)
    (hname : ∀ c ∈ name.data, c ≠ '}' ∧ lineTerm c = false) :
    replacePlaceholders ("\x7b\x7b" ++ name ++ "\x7d\x7d" ++ restS) data =
      (⟨tokenReplace data name.data⟩ : String) ++ replacePlaceholders restS data := by
  unfold replacePlaceholders
  have hdata : ("\x7b\x7b" ++ name ++ "\x7d\x7d" ++ restS).data =
      '{' :: '{' :: (name.data ++ '}' :: '}' :: restS.data) := by
    rw [strAppendData, strAppendData, strAppendData]
    simp
  rw [hdata, replaceCoreF_token data name.data restS.data _ hname (by simp [hdata]; omega)]
  rw [strMkAppend]

/-- Claim C8: placeholder substitution replaces a well-formed token
whose name is a key of the data record by that key's value, leaves a
token with an unknown name verbatim with no error, and in particular
the template with tokens title and unknownField and data mapping title
to X yields "X — " followed by the untouched unknownField token. -/
theorem replacePlaceholders_spec (data : List (String × String)) (name restS v : String)
    (hname : ∀ c ∈ name.data, c ≠ '}' ∧ lineTerm c = false) :
    (lookupData data name = none →
      replacePlaceholders ("\x7b\x7b" ++ name ++ "\x7d\x7d" ++ restS) data =
        "\x7b\x7b" ++ name ++ "\x7d\x7d" ++ replacePlaceholders restS data) ∧
    (lookupData data name = some v →
      replacePlaceholders ("\x7b\x7b" ++ name ++ "\x7d\x7d" ++ restS) data =
        v ++ replacePlaceholders restS data) ∧
    replacePlaceholders "\x7b\x7btitle\x7d\x7d — \x7b\x7bunknownField\x7d\x7d" [("title", "X")] =
      "X — \x7b\x7bunknownField\x7d\x7d" := by
  refine ⟨?_, ?_, by decide⟩
  · intro hnone
    rw [replacePlaceholders_token data name restS hname]
    have hv : lookupData data ⟨name.data⟩ = none := hnone
    have htok : (⟨tokenReplace data name.data⟩ : String) =
        ("\x7b\x7b" ++ name ++ "\x7d\x7d" : String) := by
      unfold tokenReplace
      rw [hv]
      have hd2 : (("\x7b\x7b" ++ name ++ "\x7d\x7d" : String)).data =
          '{' :: '{' :: (name.data ++ ['}', '}']) := by
        rw [strAppendData, strAppendData]
        simp
      exact (congrArg String.mk hd2).symm
    rw [htok]
  · intro hsome
    rw [replacePlaceholders_token data name restS hname]
    have hv : lookupData data ⟨name.data⟩ = some v := hsome
    unfold tokenReplace
    rw [hv]

/-- Witness for C8: the token named missing, absent from an empty data
record, is left verbatim. -/
theorem replacePlaceholders_spec_witness :
    replacePlaceholders ("\x7b\x7b" ++ "missing" ++ "\x7d\x7d" ++ "!") [] =
      "\x7b\x7b" ++ "missing" ++ "\x7d\x7d" ++ replacePlaceholders "!" [] :=
  (replacePlaceholders_spec [] "missing" "!" "" (by decide)).1 rfl

end
